import Mathlib

/-!
# ApiSpider local agent: request materialisation and execution engine

A shallow embedding of `main.go` (`calculateAuthHeaders`, the `executeRequest`
closure of `executeHandler`, `executeHandler` itself and `respondWithError`)
together with the parts of the Go standard library they call
(`encoding/base64`, `net/textproto`, `net/url`, `net/http`), followed by the
properties of the engine.

Go strings are byte sequences, so a Go `string` is a `List Byte` here and the
conversion `[]byte(s)` is the identity.
-/

namespace ApiSpider

/-! ## Bytes and strings -/

/-- One byte. -/
abbrev Byte := Fin 256

/-- Truncation of a natural number to a byte (`byte(n)` in Go). -/
def byte (n : Nat) : Byte := ⟨n % 256, Nat.mod_lt n (by decide)⟩

/-- A Go `string`: an immutable sequence of bytes. -/
abbrev GoString := List Byte

/-- An ASCII string literal of the source, as a Go string. -/
def lit (s : String) : GoString := s.data.map (fun c => byte c.toNat)

/-! ## Go maps

A Go map is listed by its entries; each key occurs once (`keysNodup`).  The
order of the list is the order in which a `range` loop visits the map, which
Go leaves unspecified: a statement proved for every list holds for every
iteration order. -/

/-- Entries of a `map[string]α`. -/
abbrev GoMap (α : Type) := List (GoString × α)

namespace GoMap

/-- The expression `m[k]` with the comma-ok result: `none` when the key is absent. -/
def get {α : Type} : GoMap α → GoString → Option α
  | [], _ => none
  | (k1, v) :: m, k => if k1 = k then some v else get m k

/-- The assignment `m[k] = v`. -/
def set {α : Type} : GoMap α → GoString → α → GoMap α
  | [], k, v => [(k, v)]
  | (k1, v1) :: m, k, v => if k1 = k then (k, v) :: m else (k1, v1) :: set m k v

/-- The keys of the map. -/
def keys {α : Type} (m : GoMap α) : List GoString := m.map Prod.fst

/-- Every key is held once. -/
abbrev keysNodup {α : Type} (m : GoMap α) : Prop := (keys m).Nodup

end GoMap

/-! ## JSON values held in `interface{}` -/

/-- What `encoding/json` stores in an `interface{}`.  A number is kept as its
decimal mantissa and exponent; the program never inspects one. -/
inductive JVal where
  | null : JVal
  | bool : Bool → JVal
  | num : Int → Int → JVal
  | str : GoString → JVal
  | arr : List JVal → JVal
  | obj : List (GoString × JVal) → JVal

/-- The type assertion `x.(string)` with the comma-ok result, applied to a map
lookup: it fails on an absent key (a nil interface) and on every non-string. -/
def asString : Option JVal → Option GoString
  | some (JVal.str s) => some s
  | _ => none

/-- The one-value form `s, _ := x.(string)`: the empty string on failure. -/
def asStringOrEmpty (x : Option JVal) : GoString := (asString x).getD []

/-! ## encoding/base64, `StdEncoding` -/

/-- The alphabet of `base64.StdEncoding`. -/
def encodeStd : GoString :=
  lit "ABCDEFGHIJKLMNOPQRSTUVWXYZabcdefghijklmnopqrstuvwxyz0123456789+/"

/-- The alphabet character of a six-bit value. -/
def encodeChar (n : Nat) : Byte := encodeStd.getD (n % 64) 0

/-- The padding character `=`. -/
def padChar : Byte := 61

/-- `base64.StdEncoding.EncodeToString`. -/
def stdEncodeToString : List Byte → GoString
  | [] => []
  | [a] => [encodeChar (a.val / 4), encodeChar (a.val % 4 * 16), padChar, padChar]
  | [a, b] =>
      [encodeChar (a.val / 4), encodeChar (a.val % 4 * 16 + b.val / 16),
       encodeChar (b.val % 16 * 4), padChar]
  | a :: b :: c :: rest =>
      encodeChar (a.val / 4) :: encodeChar (a.val % 4 * 16 + b.val / 16) ::
      encodeChar (b.val % 16 * 4 + c.val / 64) :: encodeChar (c.val % 64) ::
      stdEncodeToString rest

/-- The decode map of `StdEncoding`: the six-bit value of an alphabet
character, `none` for every other byte (`0xff` in the Go table). -/
def decodeMap (c : Byte) : Option Nat :=
  let i := encodeStd.indexOf c
  if i < 64 then some i else none

/-- Line feed and carriage return, which the decoder skips. -/
def isNewline (c : Byte) : Bool := c = 10 || c = 13

/-- The loop `for si < len(src) && (src[si] == LF || src[si] == CR)`. -/
def skipNewlines (src : GoString) : GoString := src.dropWhile isNewline

/-- The three bytes of a quantum of four six-bit values
(`val := d0<<18 | d1<<12 | d2<<6 | d3`, then `byte(val>>16)`, `byte(val>>8)`,
`byte(val)`). -/
def quantumBytes (d0 d1 d2 d3 : Nat) : List Byte :=
  let val := d0 * 262144 + d1 * 4096 + d2 * 64 + d3
  [byte (val / 65536), byte (val / 256), byte val]

/-- The decoding loop of `Encoding.Decode` with `decodeQuantum`, for the padded,
non-strict `StdEncoding`.  `dbuf` holds the six-bit values of the quantum read
so far; `none` is a `CorruptInputError`. -/
def stdDecode : List Nat → GoString → Option (List Byte)
  | dbuf, [] => if dbuf = [] then some [] else none
  | dbuf, c :: src =>
    match decodeMap c with
    | some out =>
      match dbuf with
      | [d0, d1, d2] => (stdDecode [] src).map (fun t => quantumBytes d0 d1 d2 out ++ t)
      | _ => stdDecode (dbuf ++ [out]) src
    | none =>
      if isNewline c then stdDecode dbuf src
      else if c ≠ padChar then none
      else
        match dbuf with
        | [d0, d1] =>
          match skipNewlines src with
          | [] => none
          | c2 :: rest =>
            if c2 ≠ padChar then none
            else if skipNewlines rest = [] then some ((quantumBytes d0 d1 0 0).take 1)
            else none
        | [d0, d1, d2] =>
          if skipNewlines src = [] then some ((quantumBytes d0 d1 d2 0).take 2) else none
        | _ => none

/-- `base64.StdEncoding.DecodeString`: the decoded bytes, or `none` when it
returns an error. -/
def stdDecodeString (s : GoString) : Option (List Byte) := stdDecode [] s

/-! ## strings -/

/-- `strings.Contains(s, substr)`. -/
def stringsContains : GoString → GoString → Bool
  | [], substr => substr.isEmpty
  | c :: s, substr => substr.isPrefixOf (c :: s) || stringsContains s substr

/-- The order `<=` of Go strings (bytewise lexicographic). -/
def stringLE : GoString → GoString → Bool
  | [], _ => true
  | _ :: _, [] => false
  | a :: s, b :: t => decide (a < b) || (decide (a = b) && stringLE s t)

/-! ## net/textproto and net/http headers -/

/-- `validHeaderFieldByte` of net/textproto, which is also the token table of
`httpguts.IsTokenRune`: letters, digits and the fifteen marks of RFC 7230. -/
def validHeaderFieldByte (c : Byte) : Bool :=
  (48 ≤ c.val && c.val ≤ 57) || (65 ≤ c.val && c.val ≤ 90) || (97 ≤ c.val && c.val ≤ 122) ||
  [33, 35, 36, 37, 38, 39, 42, 43, 45, 46, 94, 95, 96, 124, 126].contains c.val

/-- The second loop of `canonicalMIMEHeaderKey`: upper case for the first
letter and every letter after a dash, lower case elsewhere. -/
def canonicalize : Bool → GoString → GoString
  | _, [] => []
  | upper, c :: a =>
    let c1 : Byte :=
      if upper && decide (97 ≤ c.val ∧ c.val ≤ 122) then byte (c.val - 32)
      else if !upper && decide (65 ≤ c.val ∧ c.val ≤ 90) then byte (c.val + 32)
      else c
    c1 :: canonicalize (decide (c1 = 45)) a

/-- `textproto.CanonicalMIMEHeaderKey`: a key with a byte outside the token
table is returned unchanged. -/
def canonicalMIMEHeaderKey (s : GoString) : GoString :=
  if s.all validHeaderFieldByte then canonicalize true s else s

/-- The type `http.Header`. -/
abbrev Header := GoMap (List GoString)

/-- `http.Header.Set`. -/
def Header.Set (h : Header) (key value : GoString) : Header :=
  GoMap.set h (canonicalMIMEHeaderKey key) [value]

/-! ## net/url: query strings -/

/-- `shouldEscape(c, encodeQueryComponent)`: everything but letters, digits and
the marks `-`, `_`, `.`, `~`. -/
def shouldEscape (c : Byte) : Bool :=
  !((48 ≤ c.val && c.val ≤ 57) || (65 ≤ c.val && c.val ≤ 90) || (97 ≤ c.val && c.val ≤ 122) ||
    c.val = 45 || c.val = 95 || c.val = 46 || c.val = 126)

/-- The table `upperhex`. -/
def upperhex (n : Nat) : Byte := (lit "0123456789ABCDEF").getD (n % 16) 0

/-- `ishex`. -/
def ishex (c : Byte) : Bool :=
  (48 ≤ c.val && c.val ≤ 57) || (97 ≤ c.val && c.val ≤ 102) || (65 ≤ c.val && c.val ≤ 70)

/-- `unhex`. -/
def unhex (c : Byte) : Nat :=
  if 48 ≤ c.val ∧ c.val ≤ 57 then c.val - 48
  else if 97 ≤ c.val ∧ c.val ≤ 102 then c.val - 97 + 10
  else if 65 ≤ c.val ∧ c.val ≤ 70 then c.val - 65 + 10
  else 0

/-- What `escape` writes for one byte in query-component mode. -/
def escapeByte (c : Byte) : GoString :=
  if c = 32 then [43]
  else if shouldEscape c then [37, upperhex (c.val / 16), upperhex (c.val % 16)]
  else [c]

/-- `url.QueryEscape`. -/
def queryEscape (s : GoString) : GoString := s.flatMap escapeByte

/-- `url.QueryUnescape`; `none` is an `EscapeError`. -/
def queryUnescape : GoString → Option GoString
  | [] => some []
  | c :: s =>
    if c = 37 then
      match s with
      | a :: b :: rest =>
        if ishex a && ishex b then
          (queryUnescape rest).map (fun t => byte (unhex a * 16 + unhex b) :: t)
        else none
      | _ => none
    else if c = 43 then (queryUnescape s).map (fun t => (32 : Byte) :: t)
    else (queryUnescape s).map (fun t => c :: t)

/-- The type `url.Values`. -/
abbrev Values := GoMap (List GoString)

/-- The expression `v[key]` on a `url.Values`: the empty slice for an absent key. -/
def Values.at (v : Values) (key : GoString) : List GoString := (GoMap.get v key).getD []

/-- `url.Values.Add`: `v[key] = append(v[key], value)`. -/
def Values.Add (v : Values) (key value : GoString) : Values :=
  GoMap.set v key (Values.at v key ++ [value])

/-- `strings.Cut(s, sep)` for a one-byte separator: the text before and after
the first separator, the whole string and the empty string when there is none. -/
def cut (sep : Byte) : GoString → GoString × GoString
  | [] => ([], [])
  | c :: s => if c = sep then ([], s) else ((cut sep s).1.cons c, (cut sep s).2)

/-- One turn of the loop of `parseQuery` on the segment `key`. -/
def parseSegment (m : Values) (key : GoString) : Values :=
  if key.contains 59 then m
  else if key = [] then m
  else
    match queryUnescape (cut 61 key).1 with
    | none => m
    | some k =>
      match queryUnescape (cut 61 key).2 with
      | none => m
      | some value => Values.Add m k value

/-- The check `urlParamsWithinMax(strings.Count(query, "&") + 1)` that opens
`parseQuery`.  `maxParams` is the largest number of segments the toolchain
accepts (10000 by default where the GODEBUG setting `urlmaxqueryparams`
exists), `none` on a toolchain without the limit or with the limit disabled. -/
def withinMaxParams (maxParams : Option Nat) (query : GoString) : Bool :=
  match maxParams with
  | none => true
  | some n => decide (query.count 38 + 1 ≤ n)

/-- `url.ParseQuery`, as `URL.Query` uses it (the error is dropped): above the
limit nothing is parsed; otherwise the segments between ampersands are handled
from left to right, and a segment with a semicolon or a bad escape is skipped. -/
def parseQuery (maxParams : Option Nat) (query : GoString) : Values :=
  if withinMaxParams maxParams query then (query.splitOn 38).foldl parseSegment [] else []

/-- `url.Values.Encode`: keys in ascending order, each value as
`QueryEscape(k) = QueryEscape(v)`, joined by ampersands. -/
def Values.Encode (v : Values) : GoString :=
  let keys := (GoMap.keys v).insertionSort (fun a b => stringLE a b = true)
  [(38 : Byte)].intercalate
    (keys.flatMap (fun k => (Values.at v k).map (fun x => queryEscape k ++ [61] ++ queryEscape x)))

/-- The fields of `url.URL` that a request carries. -/
structure URL where
  Scheme : GoString
  Host : GoString
  Path : GoString
  RawQuery : GoString
  Fragment : GoString
deriving DecidableEq

/-- `URL.Query`, under the toolchain limit `maxParams`. -/
def URL.Query (u : URL) (maxParams : Option Nat) : Values := parseQuery maxParams u.RawQuery

/-! ## The request and response structures of `main.go` -/

/-- The struct `RequestPayload`. -/
structure RequestPayload where
  Method : GoString
  URL : GoString
  Headers : GoMap GoString
  Body : GoString
  AuthType : GoString
  AuthData : GoMap JVal
  FormData : List (GoMap JVal)

/-- The struct `ResponsePayload`. -/
structure ResponsePayload where
  Status : Int
  StatusText : GoString
  Headers : GoMap GoString
  Body : GoString
  Duration : Int
deriving DecidableEq

/-! ## mime/multipart -/

/-- One part written to the `multipart.Writer`: a `WriteField(name, value)` or
a `CreateFormFile(name, fileName)` followed by one `Write(content)`. -/
inductive Part where
  | field : GoString → GoString → Part
  | file : GoString → GoString → List Byte → Part
deriving DecidableEq

/-- `Writer.FormDataContentType`: the boundary is quoted when it holds one of
the bytes `()<>@,;:\"/[]?= `. -/
def formDataContentType (boundary : GoString) : GoString :=
  let special : List Byte := [40, 41, 60, 62, 64, 44, 59, 58, 92, 34, 47, 91, 93, 63, 61, 32]
  let b := if boundary.any (fun c => special.contains c) then [(34 : Byte)] ++ boundary ++ [34]
           else boundary
  lit "multipart/form-data; boundary=" ++ b

/-! ## net/http requests and responses -/

/-- The body handed to `http.NewRequest`: a byte buffer, or the buffer the
multipart writer filled, kept as its boundary and the parts written to it. -/
inductive RequestBody where
  | buffer : List Byte → RequestBody
  | multipart : GoString → List Part → RequestBody
deriving DecidableEq

/-- The fields of `http.Request` that the program sets. -/
structure Request where
  Method : GoString
  URL : URL
  Header : Header
  Body : RequestBody
deriving DecidableEq

/-- The fields of `http.Response` that the program reads; `Body` is the
outcome of `io.ReadAll(resp.Body)`, the bytes or the text of the read error. -/
structure Response where
  StatusCode : Int
  Status : GoString
  Header : Header
  Body : Except GoString (List Byte)

/-- The collaborators outside the program: the random boundary the multipart
writer draws, the URL parser and the error text of `http.NewRequest`, the
limit of `url.ParseQuery` on the number of query segments, the network behind
`client.Do` with the milliseconds it took, and the order in which `range`
visits the resolved headers. -/
structure Env where
  boundary : GoString
  maxQueryParams : Option Nat
  urlParse : GoString → Except GoString URL
  invalidMethod : GoString → GoString
  clientDo : Request → Except GoString Response × Int
  rangeOrder : GoMap GoString → GoMap GoString
  rangeOrder_perm : ∀ m, List.Perm (rangeOrder m) m

/-- `validMethod` of net/http: a non-empty token. -/
def validMethod (method : GoString) : Bool := !method.isEmpty && method.all validHeaderFieldByte

/-- `http.NewRequest`: the empty method means GET, an invalid method or an
unparsable URL is an error, the header starts empty. -/
def newRequest (env : Env) (method url : GoString) (body : RequestBody) :
    Except GoString Request :=
  let method := if method = [] then lit "GET" else method
  if validMethod method then
    match env.urlParse url with
    | Except.error e => Except.error e
    | Except.ok u => Except.ok { Method := method, URL := u, Header := [], Body := body }
  else Except.error (env.invalidMethod method)

/-! ## `calculateAuthHeaders` (main.go 62-102) -/

/-- The copy loop of lines 63-68: a fresh map that receives every entry of
the declared headers. -/
def copyHeaders (src : GoMap GoString) : GoMap GoString :=
  src.foldl (fun headers kv => GoMap.set headers kv.1 kv.2) []

/-- The function `calculateAuthHeaders`. -/
def calculateAuthHeaders (reqPayload : RequestPayload) : GoMap GoString :=
  let headers := copyHeaders reqPayload.Headers
  if reqPayload.AuthType = lit "basic" then
    match asString (GoMap.get reqPayload.AuthData (lit "username")) with
    | some username =>
      match asString (GoMap.get reqPayload.AuthData (lit "password")) with
      | some password =>
        let auth := username ++ lit ":" ++ password
        GoMap.set headers (lit "Authorization") (lit "Basic " ++ stdEncodeToString auth)
      | none => headers
    | none => headers
  else if reqPayload.AuthType = lit "bearer" then
    match asString (GoMap.get reqPayload.AuthData (lit "token")) with
    | some token => GoMap.set headers (lit "Authorization") (lit "Bearer " ++ token)
    | none => headers
  else if reqPayload.AuthType = lit "oauth2" then
    match asString (GoMap.get reqPayload.AuthData (lit "accessToken")) with
    | some accessToken =>
      let tokenType := asStringOrEmpty (GoMap.get reqPayload.AuthData (lit "tokenType"))
      let tokenType := if tokenType = [] then lit "Bearer" else tokenType
      GoMap.set headers (lit "Authorization") (tokenType ++ lit " " ++ accessToken)
    | none => headers
  else if reqPayload.AuthType = lit "api-key" then
    match asString (GoMap.get reqPayload.AuthData (lit "key")) with
    | some key =>
      match asString (GoMap.get reqPayload.AuthData (lit "value")) with
      | some value =>
        let addTo := asStringOrEmpty (GoMap.get reqPayload.AuthData (lit "addTo"))
        if addTo = lit "header" ∨ addTo = [] then GoMap.set headers key value else headers
      | none => headers
    | none => headers
  else headers

/-! ## `executeHandler` (main.go 104-255) and `respondWithError` (257-271) -/

/-- The loop of lines 140-167 over the form fields, as the parts it writes.
`CreateFormFile` on a writer over a `bytes.Buffer` returns no error. -/
def formParts : List (GoMap JVal) → List Part
  | [] => []
  | item :: rest =>
    let key := asStringOrEmpty (GoMap.get item (lit "key"))
    let value := asStringOrEmpty (GoMap.get item (lit "value"))
    let typeStr := asStringOrEmpty (GoMap.get item (lit "type"))
    if key ≠ [] then
      if typeStr = lit "file" then
        let fileName := asStringOrEmpty (GoMap.get item (lit "fileName"))
        let fileName := if fileName = [] then lit "file" else fileName
        let content :=
          if value ≠ [] then
            match stdDecodeString value with
            | some decoded => decoded
            | none => value
          else []
        Part.file key fileName content :: formParts rest
      else Part.field key value :: formParts rest
    else formParts rest

/-- Lines 133-181 of `executeRequest`: the request body and the content type. -/
def requestBody (env : Env) (reqPayload : RequestPayload) (headers : GoMap GoString) :
    RequestBody × GoString :=
  let contentType := (GoMap.get headers (lit "Content-Type")).getD []
  if 0 < reqPayload.FormData.length then
    (RequestBody.multipart env.boundary (formParts reqPayload.FormData),
     formDataContentType env.boundary)
  else if reqPayload.Body ≠ [] ∧
      stringsContains ((GoMap.get headers (lit "Content-Type")).getD [])
        (lit "application/octet-stream") = true then
    match stdDecodeString reqPayload.Body with
    | some decoded => (RequestBody.buffer decoded, contentType)
    | none => (RequestBody.buffer reqPayload.Body, contentType)
  else (RequestBody.buffer reqPayload.Body, contentType)

/-- The body of the loop of lines 192-196: every key but `Accept-Encoding` is set. -/
def headerStep (h : Header) (kv : GoString × GoString) : Header :=
  if kv.1 ≠ lit "Accept-Encoding" then Header.Set h kv.1 kv.2 else h

/-- Lines 188-196: the content type is set, then every resolved header but
`Accept-Encoding`, in the order `headers` lists them. -/
def applyHeaders (h : Header) (contentType : GoString) (headers : GoMap GoString) : Header :=
  let h := if contentType ≠ [] then Header.Set h (lit "Content-Type") contentType else h
  headers.foldl headerStep h

/-- Lines 198-209: the API key is appended to the query string. -/
def applyQueryAuth (env : Env) (reqPayload : RequestPayload) (u : URL) : URL :=
  if reqPayload.AuthType = lit "api-key" then
    match asString (GoMap.get reqPayload.AuthData (lit "addTo")) with
    | some addTo =>
      if addTo = lit "query" then
        let q := u.Query env.maxQueryParams
        match asString (GoMap.get reqPayload.AuthData (lit "key")) with
        | some key =>
          match asString (GoMap.get reqPayload.AuthData (lit "value")) with
          | some value => { u with RawQuery := (Values.Add q key value).Encode }
          | none => u
        | none => u
      else u
    | none => u
  else u

/-- Lines 133-209 of `executeRequest`: the outbound request handed to
`client.Do`, or the error of `http.NewRequest`.  `headers` lists the resolved
headers in the order the loop of line 192 visits them. -/
def buildRequest (env : Env) (reqPayload : RequestPayload) (headers : GoMap GoString) :
    Except GoString Request :=
  let bc := requestBody env reqPayload headers
  match newRequest env reqPayload.Method reqPayload.URL bc.1 with
  | Except.error err => Except.error err
  | Except.ok req =>
    let req := { req with Header := applyHeaders req.Header bc.2 headers }
    Except.ok { req with URL := applyQueryAuth env reqPayload req.URL }

/-- The closure `executeRequest` (lines 130-214): response or error, and the
duration, which is 0 when the request could not be built. -/
def executeRequest (env : Env) (reqPayload : RequestPayload) (headers : GoMap GoString) :
    Except GoString Response × Int :=
  match buildRequest env reqPayload headers with
  | Except.error err => (Except.error err, 0)
  | Except.ok req => env.clientDo req

/-- What a handler leaves on the `http.ResponseWriter`. -/
inductive Written where
  | bare : Header → Nat → Written
  | text : Header → Nat → GoString → Written
  | json : Header → Nat → ResponsePayload → Written
deriving DecidableEq

/-- The function `enableCORS`. -/
def enableCORS (h : Header) : Header :=
  let h := Header.Set h (lit "Access-Control-Allow-Origin") (lit "*")
  let h := Header.Set h (lit "Access-Control-Allow-Methods") (lit "POST, GET, OPTIONS")
  let h := Header.Set h (lit "Access-Control-Allow-Headers") (lit "Content-Type, Authorization")
  Header.Set h (lit "Access-Control-Allow-Private-Network") (lit "true")

/-- `http.Error`: a plain-text reply, the message followed by a line feed. -/
def httpError (h : Header) (error : GoString) (code : Nat) : Written :=
  let h := Header.Set h (lit "Content-Type") (lit "text/plain; charset=utf-8")
  let h := Header.Set h (lit "X-Content-Type-Options") (lit "nosniff")
  Written.text h code (error ++ [10])

/-- The function `respondWithError`; `err` is the text `err.Error()`. -/
def respondWithError (h : Header) (message err : GoString) : Written :=
  let response : ResponsePayload :=
    { Status := 0
      StatusText := lit "Error"
      Headers := []
      Body := message ++ lit ": " ++ err
      Duration := 0 }
  Written.json (Header.Set h (lit "Content-Type") (lit "application/json")) 200 response

/-- The loop of lines 235-240: the first value of every response header. -/
def firstValues (respHeader : Header) : GoMap GoString :=
  respHeader.foldl
    (fun respHeaders kv =>
      match kv.2 with
      | [] => respHeaders
      | v :: _ => GoMap.set respHeaders kv.1 v) []

/-- The function `executeHandler`, applied to the method of the inbound
request and to the outcome of decoding its JSON body. -/
def executeHandler (env : Env) (rMethod : GoString)
    (decoded : Except GoString RequestPayload) : Written :=
  let h := enableCORS []
  if rMethod = lit "OPTIONS" then Written.bare h 200
  else if rMethod ≠ lit "POST" then httpError h (lit "Method not allowed") 405
  else
    match decoded with
    | Except.error _ => httpError h (lit "Invalid request payload") 400
    | Except.ok reqPayload =>
      let finalHeaders := calculateAuthHeaders reqPayload
      match executeRequest env reqPayload (env.rangeOrder finalHeaders) with
      | (Except.error err, _) => respondWithError h (lit "Request failed") err
      | (Except.ok resp, duration) =>
        match resp.Body with
        | Except.error err => respondWithError h (lit "Failed to read response") err
        | Except.ok bodyBytes =>
          let response : ResponsePayload :=
            { Status := resp.StatusCode
              StatusText := resp.Status
              Headers := firstValues resp.Header
              Body := bodyBytes
              Duration := duration }
          Written.json (Header.Set h (lit "Content-Type") (lit "application/json")) 200 response

/-! ## Sample inputs -/

/-- A payload with the given headers, scheme and auth data, and nothing else. -/
def authPayload (headers : GoMap GoString) (authType : GoString) (authData : GoMap JVal) :
    RequestPayload :=
  { Method := lit "GET"
    URL := lit "http://localhost:9999/x"
    Headers := headers
    Body := []
    AuthType := authType
    AuthData := authData
    FormData := [] }

/-- A baseline that already carries an `Authorization` header. -/
def staleBaseline : GoMap GoString :=
  [(lit "Accept", lit "*/*"), (lit "Authorization", lit "stale")]

/-- A baseline that already carries the header `X-API-Key` with the value `secret`. -/
def keyedBaseline : GoMap GoString :=
  [(lit "X-API-Key", lit "secret"), (lit "Accept", lit "*/*")]

/-- The `api-key` scheme with addTo `query` over `keyedBaseline`, whose key and
value are the ones the baseline already holds. -/
def queryKeyPayload : RequestPayload :=
  authPayload keyedBaseline (lit "api-key")
    [(lit "key", JVal.str (lit "X-API-Key")), (lit "value", JVal.str (lit "secret")),
     (lit "addTo", JVal.str (lit "query"))]

/-- A stand-in for the collaborators, to run the model on concrete inputs: the
URL is split at its first question mark, the target refuses the connection
after 3 ms, and `range` visits the headers as listed. -/
def sampleEnv : Env :=
  { boundary := lit "5c1d3fa2b7e94c0a"
    maxQueryParams := some 10000
    urlParse := fun url =>
      Except.ok { Scheme := [], Host := [], Path := (cut 63 url).1,
                  RawQuery := (cut 63 url).2, Fragment := [] }
    invalidMethod := fun method => lit "net/http: invalid method " ++ method
    clientDo := fun _ => (Except.error (lit "dial tcp 127.0.0.1:9999: connect: connection refused"), 3)
    rangeOrder := fun m => m
    rangeOrder_perm := fun m => List.Perm.refl m }

/-- The payload of the binary round trip: the body `AAH/` is the base64
encoding of the bytes 00 01 ff. -/
def binaryPayload : RequestPayload :=
  { Method := lit "POST"
    URL := lit "http://localhost:9999/x"
    Headers := [(lit "Content-Type", lit "application/octet-stream")]
    Body := lit "AAH/"
    AuthType := lit "none"
    AuthData := []
    FormData := [] }

/-- A text request whose Content-Type is `application/octet-stream` with a
parameter, and whose body `AAEC` happens to be valid base64. -/
def parameterPayload : RequestPayload :=
  { Method := lit "POST"
    URL := lit "http://localhost:9999/x"
    Headers := [(lit "Content-Type", lit "application/octet-stream; charset=binary")]
    Body := lit "AAEC"
    AuthType := lit "none"
    AuthData := []
    FormData := [] }

/-- A JSON text request. -/
def textPayload : RequestPayload :=
  { Method := lit "POST"
    URL := lit "http://localhost:9999/x"
    Headers := [(lit "Content-Type", lit "application/json")]
    Body := lit "AAEC"
    AuthType := lit "none"
    AuthData := []
    FormData := [] }

/-- A form-data request that also declares a JSON content type. -/
def formPayload : RequestPayload :=
  { Method := lit "POST"
    URL := lit "http://localhost:9999/upload"
    Headers := [(lit "Content-Type", lit "application/json")]
    Body := []
    AuthType := lit "none"
    AuthData := []
    FormData := [[(lit "key", JVal.str (lit "a")), (lit "value", JVal.str (lit "b"))]] }

/-- An `api-key` request with addTo `query` whose URL already has two values
for the key and one other parameter. -/
def queryPayload : RequestPayload :=
  { Method := lit "GET"
    URL := lit "http://localhost:9999/x?api_key=old&page=2&api_key=older"
    Headers := []
    Body := []
    AuthType := lit "api-key"
    AuthData := [(lit "key", JVal.str (lit "api_key")), (lit "value", JVal.str (lit "s3cr3t")),
                 (lit "addTo", JVal.str (lit "query"))]
    FormData := [] }

/-- Resolved headers with two spellings of one name and a lower-case
`accept-encoding`. -/
def spellingPayload : RequestPayload :=
  { Method := lit "GET"
    URL := lit "http://localhost:9999/x"
    Headers := [(lit "accept-encoding", lit "gzip"), (lit "x-trace", lit "1"),
                (lit "X-Trace", lit "2")]
    Body := []
    AuthType := lit "none"
    AuthData := []
    FormData := [] }

/-- Resolved headers with canonically distinct names, `Accept-Encoding` among them. -/
def plainPayload : RequestPayload :=
  { Method := lit "GET"
    URL := lit "http://localhost:9999/x"
    Headers := [(lit "Accept-Encoding", lit "gzip"), (lit "x-trace", lit "1"),
                (lit "Accept", lit "*/*")]
    Body := []
    AuthType := lit "none"
    AuthData := []
    FormData := [] }

/-- A request whose method is not a token. -/
def badMethodPayload : RequestPayload :=
  { Method := lit "BAD METHOD"
    URL := lit "http://localhost:9999/x"
    Headers := []
    Body := []
    AuthType := lit "none"
    AuthData := []
    FormData := [] }

/-- The collaborators of `sampleEnv` with a target that answers 200 after 12 ms
and then breaks the connection while the body is read. -/
def brokenReadEnv : Env :=
  { sampleEnv with
    clientDo := fun _ =>
      (Except.ok { StatusCode := 200, Status := lit "200 OK", Header := [],
                   Body := Except.error (lit "unexpected EOF") }, 12) }

/-- An `api-key` request with addTo `query`, key `k` and value `v`, on the
given URL. -/
def keyInQueryPayload (url : GoString) : RequestPayload :=
  { Method := lit "GET"
    URL := url
    Headers := []
    Body := []
    AuthType := lit "api-key"
    AuthData := [(lit "key", JVal.str (lit "k")), (lit "value", JVal.str (lit "v")),
                 (lit "addTo", JVal.str (lit "query"))]
    FormData := [] }

/-- A URL whose first query pair has a percent sign that starts no escape. -/
def percentPayload : RequestPayload :=
  keyInQueryPayload (lit "http://localhost:9999/x?q=100%&page=2")

/-- A URL whose query uses a semicolon. -/
def semicolonPayload : RequestPayload :=
  keyInQueryPayload (lit "http://localhost:9999/x?a=1;b=2")

/-! # Properties -/

/-! ## Lemmas on Go maps -/

theorem GoMap.get_set_self {α : Type} (m : GoMap α) (k : GoString) (v : α) :
    GoMap.get (GoMap.set m k v) k = some v := by
  induction m with
  | nil => simp [GoMap.set, GoMap.get]
  | cons e m ih =>
    obtain ⟨k1, v1⟩ := e
    by_cases h : k1 = k
    · simp [GoMap.set, GoMap.get, h]
    · simp [GoMap.set, GoMap.get, h, ih]

theorem GoMap.get_set_ne {α : Type} (m : GoMap α) (k k2 : GoString) (v : α) (h : k2 ≠ k) :
    GoMap.get (GoMap.set m k v) k2 = GoMap.get m k2 := by
  induction m with
  | nil => simp [GoMap.set, GoMap.get, Ne.symm h]
  | cons e m ih =>
    obtain ⟨k1, v1⟩ := e
    by_cases h1 : k1 = k
    · subst h1
      simp [GoMap.set, GoMap.get, Ne.symm h]
    · simp [GoMap.set, GoMap.get, h1, ih]

theorem GoMap.get_eq_none {α : Type} (m : GoMap α) (k : GoString) (h : k ∉ GoMap.keys m) :
    GoMap.get m k = none := by
  induction m with
  | nil => rfl
  | cons e m ih =>
    obtain ⟨k1, v1⟩ := e
    simp only [GoMap.keys, List.map_cons, List.mem_cons, not_or] at h
    simp only [GoMap.get, Ne.symm h.1, if_false]
    exact ih h.2

theorem GoMap.get_of_mem {α : Type} (m : GoMap α) (k : GoString) (v : α)
    (hnd : GoMap.keysNodup m) (h : (k, v) ∈ m) : GoMap.get m k = some v := by
  induction m with
  | nil => simp at h
  | cons e m ih =>
    obtain ⟨k1, v1⟩ := e
    simp only [GoMap.keysNodup, GoMap.keys, List.map_cons, List.nodup_cons] at hnd
    rcases List.mem_cons.1 h with h1 | h1
    · cases h1
      simp [GoMap.get]
    · have hk : k1 ≠ k := by
        rintro rfl
        exact hnd.1 (List.mem_map.2 ⟨(k1, v), h1, rfl⟩)
      simp only [GoMap.get, hk, if_false]
      exact ih hnd.2 h1

theorem GoMap.set_of_not_mem {α : Type} (m : GoMap α) (k : GoString) (v : α)
    (h : k ∉ GoMap.keys m) : GoMap.set m k v = m ++ [(k, v)] := by
  induction m with
  | nil => rfl
  | cons e m ih =>
    obtain ⟨k1, v1⟩ := e
    simp only [GoMap.keys, List.map_cons, List.mem_cons, not_or] at h
    simp only [GoMap.set, Ne.symm h.1, if_false, List.cons_append]
    rw [ih h.2]

theorem GoMap.foldl_set_nodup (l acc : GoMap GoString)
    (h : (GoMap.keys (acc ++ l)).Nodup) :
    l.foldl (fun headers kv => GoMap.set headers kv.1 kv.2) acc = acc ++ l := by
  induction l generalizing acc with
  | nil => simp
  | cons e l ih =>
    obtain ⟨k, v⟩ := e
    have hk : k ∉ GoMap.keys acc := by
      simp only [GoMap.keys, List.map_append, List.map_cons] at h
      have := (List.nodup_append.1 h).2.2
      intro hmem
      exact this hmem (List.mem_cons_self _ _)
    simp only [List.foldl_cons]
    rw [GoMap.set_of_not_mem acc k v hk, ih]
    · simp
    · simpa using h

/-- Copying a map yields the same map. -/
theorem copyHeaders_eq (m : GoMap GoString) (h : GoMap.keysNodup m) : copyHeaders m = m := by
  have := GoMap.foldl_set_nodup m [] (by simpa [GoMap.keysNodup] using h)
  simpa [copyHeaders] using this

/-! ## The auth resolver -/

/-- C1: for every baseline and every auth data whose scheme fields are strings,
the `Authorization` entry of the result is `Basic ` + base64(username:password)
for `basic`, `Bearer ` + token for `bearer`, and for `oauth2`
tokenType + space + accessToken when tokenType is a non-empty string and
`Bearer ` + accessToken when tokenType is absent; whatever the baseline held
under `Authorization` is replaced. -/
theorem C1_authorization_header (p : RequestPayload) :
    (∀ username password, p.AuthType = lit "basic" →
        asString (GoMap.get p.AuthData (lit "username")) = some username →
        asString (GoMap.get p.AuthData (lit "password")) = some password →
        GoMap.get (calculateAuthHeaders p) (lit "Authorization") =
          some (lit "Basic " ++ stdEncodeToString (username ++ lit ":" ++ password))) ∧
    (∀ token, p.AuthType = lit "bearer" →
        asString (GoMap.get p.AuthData (lit "token")) = some token →
        GoMap.get (calculateAuthHeaders p) (lit "Authorization") =
          some (lit "Bearer " ++ token)) ∧
    (∀ accessToken tokenType, p.AuthType = lit "oauth2" →
        asString (GoMap.get p.AuthData (lit "accessToken")) = some accessToken →
        asString (GoMap.get p.AuthData (lit "tokenType")) = some tokenType →
        tokenType ≠ [] →
        GoMap.get (calculateAuthHeaders p) (lit "Authorization") =
          some (tokenType ++ lit " " ++ accessToken)) ∧
    (∀ accessToken, p.AuthType = lit "oauth2" →
        asString (GoMap.get p.AuthData (lit "accessToken")) = some accessToken →
        GoMap.get p.AuthData (lit "tokenType") = none →
        GoMap.get (calculateAuthHeaders p) (lit "Authorization") =
          some (lit "Bearer " ++ accessToken)) := by
  refine ⟨?_, ?_, ?_, ?_⟩
  · intro username password ht hu hp
    simp only [calculateAuthHeaders, ht, hu, hp, if_true]
    exact GoMap.get_set_self _ _ _
  · intro token ht hk
    have h1 : lit "bearer" ≠ lit "basic" := by decide
    simp only [calculateAuthHeaders, ht, hk, h1, if_true, if_false]
    exact GoMap.get_set_self _ _ _
  · intro accessToken tokenType ht ha htt hne
    have h1 : lit "oauth2" ≠ lit "basic" := by decide
    have h2 : lit "oauth2" ≠ lit "bearer" := by decide
    simp only [calculateAuthHeaders, ht, ha, h1, h2, if_true, if_false, asStringOrEmpty, htt,
      Option.getD_some, hne]
    exact GoMap.get_set_self _ _ _
  · intro accessToken ht ha htt
    have h1 : lit "oauth2" ≠ lit "basic" := by decide
    have h2 : lit "oauth2" ≠ lit "bearer" := by decide
    have h3 : asString (GoMap.get p.AuthData (lit "tokenType")) = none := by rw [htt]; rfl
    have h4 : lit "Bearer" ++ lit " " = lit "Bearer " := by decide
    simp only [calculateAuthHeaders, ht, ha, h1, h2, if_true, if_false, asStringOrEmpty, h3,
      Option.getD_none]
    rw [h4]
    exact GoMap.get_set_self _ _ _

/-- The four schemes of C1 on a baseline that holds a stale `Authorization`. -/
theorem C1_authorization_header_witness :
    GoMap.get (calculateAuthHeaders (authPayload staleBaseline (lit "basic")
        [(lit "username", JVal.str (lit "u")), (lit "password", JVal.str (lit "p"))]))
      (lit "Authorization") = some (lit "Basic dTpw") ∧
    GoMap.get (calculateAuthHeaders (authPayload staleBaseline (lit "bearer")
        [(lit "token", JVal.str (lit "T"))]))
      (lit "Authorization") = some (lit "Bearer T") ∧
    GoMap.get (calculateAuthHeaders (authPayload staleBaseline (lit "oauth2")
        [(lit "accessToken", JVal.str (lit "A")), (lit "tokenType", JVal.str (lit "MAC"))]))
      (lit "Authorization") = some (lit "MAC A") ∧
    GoMap.get (calculateAuthHeaders (authPayload staleBaseline (lit "oauth2")
        [(lit "accessToken", JVal.str (lit "A"))]))
      (lit "Authorization") = some (lit "Bearer A") :=
  ⟨(C1_authorization_header _).1 (lit "u") (lit "p") rfl (by decide) (by decide),
   (C1_authorization_header _).2.1 (lit "T") rfl (by decide),
   (C1_authorization_header _).2.2.1 (lit "A") (lit "MAC") rfl (by decide) (by decide)
     (by decide),
   (C1_authorization_header _).2.2.2 (lit "A") rfl (by decide) rfl⟩

/-- C2: the resolver is a total function, and when the scheme is none of
`basic`, `bearer`, `oauth2`, `api-key`, or a field the scheme requires is
absent or not a string, the result is exactly the baseline mapping. -/
theorem C2_unusable_auth_ignored (p : RequestPayload) (hnd : GoMap.keysNodup p.Headers)
    (h : (p.AuthType ≠ lit "basic" ∧ p.AuthType ≠ lit "bearer" ∧ p.AuthType ≠ lit "oauth2" ∧
            p.AuthType ≠ lit "api-key") ∨
         (p.AuthType = lit "basic" ∧
            (asString (GoMap.get p.AuthData (lit "username")) = none ∨
             asString (GoMap.get p.AuthData (lit "password")) = none)) ∨
         (p.AuthType = lit "bearer" ∧ asString (GoMap.get p.AuthData (lit "token")) = none) ∨
         (p.AuthType = lit "oauth2" ∧
            asString (GoMap.get p.AuthData (lit "accessToken")) = none) ∨
         (p.AuthType = lit "api-key" ∧
            (asString (GoMap.get p.AuthData (lit "key")) = none ∨
             asString (GoMap.get p.AuthData (lit "value")) = none))) :
    calculateAuthHeaders p = p.Headers := by
  have h1 : lit "bearer" ≠ lit "basic" := by decide
  have h2 : lit "oauth2" ≠ lit "basic" := by decide
  have h3 : lit "oauth2" ≠ lit "bearer" := by decide
  have h4 : lit "api-key" ≠ lit "basic" := by decide
  have h5 : lit "api-key" ≠ lit "bearer" := by decide
  have h6 : lit "api-key" ≠ lit "oauth2" := by decide
  rw [← copyHeaders_eq p.Headers hnd]
  rcases h with ⟨a, b, c, d⟩ | ⟨ht, hu | hp⟩ | ⟨ht, hk⟩ | ⟨ht, ha⟩ | ⟨ht, hk | hv⟩
  · simp only [calculateAuthHeaders, a, b, c, d, if_false, copyHeaders_eq p.Headers hnd]
  · simp only [calculateAuthHeaders, ht, hu, if_true, copyHeaders_eq p.Headers hnd]
  · simp only [calculateAuthHeaders, ht, hp, if_true, copyHeaders_eq p.Headers hnd]
    split <;> rfl
  · simp only [calculateAuthHeaders, ht, hk, h1, if_true, if_false,
      copyHeaders_eq p.Headers hnd]
  · simp only [calculateAuthHeaders, ht, ha, h2, h3, if_true, if_false,
      copyHeaders_eq p.Headers hnd]
  · simp only [calculateAuthHeaders, ht, hk, h4, h5, h6, if_true, if_false,
      copyHeaders_eq p.Headers hnd]
  · simp only [calculateAuthHeaders, ht, hv, h4, h5, h6, if_true, if_false,
      copyHeaders_eq p.Headers hnd]
    split <;> rfl

/-- C2 on a `basic` scheme whose password is a number. -/
theorem C2_unusable_auth_ignored_witness :
    calculateAuthHeaders (authPayload staleBaseline (lit "basic")
        [(lit "username", JVal.str (lit "u")), (lit "password", JVal.num 7 0)]) =
      staleBaseline :=
  C2_unusable_auth_ignored (authPayload staleBaseline (lit "basic")
      [(lit "username", JVal.str (lit "u")), (lit "password", JVal.num 7 0)])
    (by decide) (Or.inr (Or.inl ⟨rfl, Or.inr (by decide)⟩))

/-- The resolver on an `api-key` scheme with string key and value. -/
theorem calculateAuthHeaders_apiKey (p : RequestPayload) (k v : GoString)
    (ht : p.AuthType = lit "api-key")
    (hk : asString (GoMap.get p.AuthData (lit "key")) = some k)
    (hv : asString (GoMap.get p.AuthData (lit "value")) = some v) :
    calculateAuthHeaders p =
      if asStringOrEmpty (GoMap.get p.AuthData (lit "addTo")) = lit "header" ∨
          asStringOrEmpty (GoMap.get p.AuthData (lit "addTo")) = []
      then GoMap.set (copyHeaders p.Headers) k v else copyHeaders p.Headers := by
  have h4 : lit "api-key" ≠ lit "basic" := by decide
  have h5 : lit "api-key" ≠ lit "bearer" := by decide
  have h6 : lit "api-key" ≠ lit "oauth2" := by decide
  simp only [calculateAuthHeaders, ht, hk, hv, h4, h5, h6, if_true, if_false]

/-- C5: for `api-key` with string key k and string value v, when addTo is
`header`, the empty string or absent, the result maps k to v whatever the
baseline held under k, and every baseline entry with another name is unchanged. -/
theorem C5_api_key_header (p : RequestPayload) (k v : GoString)
    (hnd : GoMap.keysNodup p.Headers)
    (ht : p.AuthType = lit "api-key")
    (hk : asString (GoMap.get p.AuthData (lit "key")) = some k)
    (hv : asString (GoMap.get p.AuthData (lit "value")) = some v)
    (ha : asString (GoMap.get p.AuthData (lit "addTo")) = some (lit "header") ∨
          asString (GoMap.get p.AuthData (lit "addTo")) = some [] ∨
          GoMap.get p.AuthData (lit "addTo") = none) :
    GoMap.get (calculateAuthHeaders p) k = some v ∧
    ∀ k2, k2 ≠ k → GoMap.get (calculateAuthHeaders p) k2 = GoMap.get p.Headers k2 := by
  have hc : asStringOrEmpty (GoMap.get p.AuthData (lit "addTo")) = lit "header" ∨
      asStringOrEmpty (GoMap.get p.AuthData (lit "addTo")) = [] := by
    rcases ha with h | h | h
    · left; simp [asStringOrEmpty, h]
    · right; simp [asStringOrEmpty, h]
    · right; rw [h]; rfl
  rw [calculateAuthHeaders_apiKey p k v ht hk hv, if_pos hc, copyHeaders_eq p.Headers hnd]
  exact ⟨GoMap.get_set_self _ _ _, fun k2 h2 => GoMap.get_set_ne _ _ _ _ h2⟩

/-- C5 on a baseline that maps the key to a different value. -/
theorem C5_api_key_header_witness :
    GoMap.get (calculateAuthHeaders (authPayload keyedBaseline (lit "api-key")
        [(lit "key", JVal.str (lit "X-API-Key")), (lit "value", JVal.str (lit "fresh"))]))
      (lit "X-API-Key") = some (lit "fresh") ∧
    ∀ k2, k2 ≠ lit "X-API-Key" →
      GoMap.get (calculateAuthHeaders (authPayload keyedBaseline (lit "api-key")
        [(lit "key", JVal.str (lit "X-API-Key")), (lit "value", JVal.str (lit "fresh"))])) k2 =
      GoMap.get keyedBaseline k2 :=
  C5_api_key_header (authPayload keyedBaseline (lit "api-key")
      [(lit "key", JVal.str (lit "X-API-Key")), (lit "value", JVal.str (lit "fresh"))])
    (lit "X-API-Key") (lit "fresh") (by decide) rfl (by decide) (by decide)
    (Or.inr (Or.inr rfl))

/-- C6 as stated fails: with addTo `query`, a baseline that already holds the
header k with the value v keeps it, so the header is present in the result. -/
theorem C6_counterexample :
    GoMap.keysNodup queryKeyPayload.Headers ∧
    queryKeyPayload.AuthType = lit "api-key" ∧
    asString (GoMap.get queryKeyPayload.AuthData (lit "key")) = some (lit "X-API-Key") ∧
    asString (GoMap.get queryKeyPayload.AuthData (lit "value")) = some (lit "secret") ∧
    asString (GoMap.get queryKeyPayload.AuthData (lit "addTo")) = some (lit "query") ∧
    GoMap.get (calculateAuthHeaders queryKeyPayload) (lit "X-API-Key") = some (lit "secret") := by
  decide

/-- C6, amended: for `api-key` with string key k, string value v and addTo
`query`, the resolver adds no header: the result is exactly the baseline, so a
header named k with value v is present only when the baseline already holds it. -/
theorem C6_api_key_query_adds_no_header (p : RequestPayload) (k v : GoString)
    (hnd : GoMap.keysNodup p.Headers)
    (ht : p.AuthType = lit "api-key")
    (hk : asString (GoMap.get p.AuthData (lit "key")) = some k)
    (hv : asString (GoMap.get p.AuthData (lit "value")) = some v)
    (ha : asString (GoMap.get p.AuthData (lit "addTo")) = some (lit "query")) :
    calculateAuthHeaders p = p.Headers ∧
    (GoMap.get (calculateAuthHeaders p) k = some v ↔ GoMap.get p.Headers k = some v) := by
  have hc : ¬ (asStringOrEmpty (GoMap.get p.AuthData (lit "addTo")) = lit "header" ∨
      asStringOrEmpty (GoMap.get p.AuthData (lit "addTo")) = []) := by
    simp only [asStringOrEmpty, ha, Option.getD_some]
    decide
  have h : calculateAuthHeaders p = p.Headers := by
    rw [calculateAuthHeaders_apiKey p k v ht hk hv, if_neg hc, copyHeaders_eq p.Headers hnd]
  exact ⟨h, by rw [h]⟩

/-- C6 amended, on a baseline without the key. -/
theorem C6_api_key_query_adds_no_header_witness :
    calculateAuthHeaders (authPayload staleBaseline (lit "api-key")
      [(lit "key", JVal.str (lit "X-API-Key")), (lit "value", JVal.str (lit "secret")),
       (lit "addTo", JVal.str (lit "query"))]) = staleBaseline ∧
    (GoMap.get (calculateAuthHeaders (authPayload staleBaseline (lit "api-key")
      [(lit "key", JVal.str (lit "X-API-Key")), (lit "value", JVal.str (lit "secret")),
       (lit "addTo", JVal.str (lit "query"))])) (lit "X-API-Key") = some (lit "secret") ↔
     GoMap.get staleBaseline (lit "X-API-Key") = some (lit "secret")) :=
  C6_api_key_query_adds_no_header (authPayload staleBaseline (lit "api-key")
      [(lit "key", JVal.str (lit "X-API-Key")), (lit "value", JVal.str (lit "secret")),
       (lit "addTo", JVal.str (lit "query"))])
    (lit "X-API-Key") (lit "secret") (by decide) rfl (by decide) (by decide) (by decide)

/-! ## base64 round trip -/

theorem decodeMap_encodeChar (n : Nat) (h : n < 64) : decodeMap (encodeChar n) = some n := by
  have key : ∀ i : Fin 64, decodeMap (encodeChar i.val) = some i.val := by decide
  exact key ⟨n, h⟩

theorem quantumBytes_encode (a b c : Byte) :
    quantumBytes (a.val / 4) (a.val % 4 * 16 + b.val / 16) (b.val % 16 * 4 + c.val / 64)
      (c.val % 64) = [a, b, c] := by
  have ha := a.isLt
  have hb := b.isLt
  have hc := c.isLt
  simp only [quantumBytes, byte]
  refine congrArg₂ _ (Fin.ext ?_) (congrArg₂ _ (Fin.ext ?_) (congrArg₂ _ (Fin.ext ?_) rfl))
  · simp only; omega
  · simp only; omega
  · simp only; omega

theorem stdDecode_quantum (d0 d1 d2 d3 : Nat) (h0 : d0 < 64) (h1 : d1 < 64) (h2 : d2 < 64)
    (h3 : d3 < 64) (rest : GoString) :
    stdDecode [] (encodeChar d0 :: encodeChar d1 :: encodeChar d2 :: encodeChar d3 :: rest) =
      (stdDecode [] rest).map (fun t => quantumBytes d0 d1 d2 d3 ++ t) := by
  simp [stdDecode, decodeMap_encodeChar, h0, h1, h2, h3]

theorem stdDecodeString_encode (b : List Byte) :
    stdDecodeString (stdEncodeToString b) = some b := by
  unfold stdDecodeString
  induction b using stdEncodeToString.induct with
  | case1 => rfl
  | case2 a =>
    have ha := a.isLt
    have hp : decodeMap padChar = none := by decide
    have hn : isNewline padChar = false := by decide
    simp only [stdEncodeToString, stdDecode]
    rw [decodeMap_encodeChar _ (by omega), decodeMap_encodeChar _ (by omega)]
    simp [hp, hn, skipNewlines, quantumBytes, byte]
    apply Fin.ext
    simp only
    omega
  | case3 a b =>
    have ha := a.isLt
    have hb := b.isLt
    have hp : decodeMap padChar = none := by decide
    have hn : isNewline padChar = false := by decide
    simp only [stdEncodeToString, stdDecode]
    rw [decodeMap_encodeChar _ (by omega), decodeMap_encodeChar _ (by omega),
      decodeMap_encodeChar _ (by omega)]
    simp [hp, hn, skipNewlines, quantumBytes, byte]
    constructor <;> (apply Fin.ext; simp only; omega)
  | case4 a b c rest ih =>
    have ha := a.isLt
    have hb := b.isLt
    have hc := c.isLt
    simp only [stdEncodeToString]
    rw [stdDecode_quantum _ _ _ _ (by omega) (by omega) (by omega) (by omega), ih,
      quantumBytes_encode]
    rfl

/-! ## The executor: body and headers of the outbound request -/

/-- The request that `buildRequest` returns when `http.NewRequest` succeeds. -/
theorem buildRequest_ok (env : Env) (p : RequestPayload) (headers : GoMap GoString)
    (req : Request) (h : buildRequest env p headers = Except.ok req) :
    ∃ r0, newRequest env p.Method p.URL (requestBody env p headers).1 = Except.ok r0 ∧
      req = { Method := r0.Method, URL := applyQueryAuth env p r0.URL,
              Header := applyHeaders r0.Header (requestBody env p headers).2 headers,
              Body := r0.Body } := by
  unfold buildRequest at h
  cases hn : newRequest env p.Method p.URL (requestBody env p headers).1 with
  | error e => simp [hn] at h
  | ok r0 =>
    simp only [hn, Except.ok.injEq] at h
    exact ⟨r0, rfl, h.symm⟩

/-- A request made by `http.NewRequest` has the body it was given, an empty
header and the parsed URL. -/
theorem newRequest_ok (env : Env) (method url : GoString) (body : RequestBody) (r0 : Request)
    (h : newRequest env method url body = Except.ok r0) :
    r0.Body = body ∧ r0.Header = [] ∧ env.urlParse url = Except.ok r0.URL := by
  unfold newRequest at h
  by_cases hv : validMethod (if method = [] then lit "GET" else method) = true
  · cases hu : env.urlParse url with
    | error e => simp [hv, hu] at h
    | ok u =>
      simp only [hv, hu, if_true, Except.ok.injEq] at h
      subst h
      exact ⟨rfl, rfl, rfl⟩
  · simp [hv] at h

/-- The body of the outbound request is the one lines 133-181 chose. -/
theorem buildRequest_body (env : Env) (p : RequestPayload) (headers : GoMap GoString)
    (req : Request) (h : buildRequest env p headers = Except.ok req) :
    req.Body = (requestBody env p headers).1 := by
  obtain ⟨r0, h0, rfl⟩ := buildRequest_ok env p headers req h
  exact (newRequest_ok env _ _ _ r0 h0).1

/-- The header of the outbound request is the one lines 188-196 fill. -/
theorem buildRequest_header (env : Env) (p : RequestPayload) (headers : GoMap GoString)
    (req : Request) (h : buildRequest env p headers = Except.ok req) :
    req.Header = applyHeaders [] (requestBody env p headers).2 headers := by
  obtain ⟨r0, h0, rfl⟩ := buildRequest_ok env p headers req h
  simp only [(newRequest_ok env _ _ _ r0 h0).2.1]

/-- The URL of the outbound request is the parsed URL after lines 198-209. -/
theorem buildRequest_url (env : Env) (p : RequestPayload) (headers : GoMap GoString)
    (req : Request) (h : buildRequest env p headers = Except.ok req) :
    ∃ u, env.urlParse p.URL = Except.ok u ∧ req.URL = applyQueryAuth env p u := by
  obtain ⟨r0, h0, rfl⟩ := buildRequest_ok env p headers req h
  exact ⟨r0.URL, (newRequest_ok env _ _ _ r0 h0).2.2, rfl⟩

/-- C8: with empty formData, a non-empty body and a resolved Content-Type
containing `application/octet-stream`, the outbound body is the base64 decoding
of the body when it decodes and the literal bytes of the body otherwise; when
the body is the base64 encoding of a byte sequence b, the outbound body is b. -/
theorem C8_binary_body_round_trip (env : Env) (p : RequestPayload)
    (headers : GoMap GoString) (req : Request)
    (hform : p.FormData = [])
    (hct : stringsContains ((GoMap.get headers (lit "Content-Type")).getD [])
      (lit "application/octet-stream") = true)
    (hreq : buildRequest env p headers = Except.ok req) :
    (p.Body ≠ [] →
      (∀ decoded, stdDecodeString p.Body = some decoded →
        req.Body = RequestBody.buffer decoded) ∧
      (stdDecodeString p.Body = none → req.Body = RequestBody.buffer p.Body)) ∧
    (∀ b, p.Body = stdEncodeToString b → req.Body = RequestBody.buffer b) := by
  rw [buildRequest_body env p headers req hreq]
  have hbody : p.Body ≠ [] →
      (requestBody env p headers).1 =
        RequestBody.buffer ((stdDecodeString p.Body).getD p.Body) := by
    intro hne
    simp only [requestBody, hform, List.length_nil, lt_irrefl, if_false, hne, hct, ne_eq,
      not_false_eq_true, and_self, if_true]
    cases stdDecodeString p.Body <;> rfl
  refine ⟨fun hne => ⟨fun decoded hd => ?_, fun hd => ?_⟩, fun b hb => ?_⟩
  · rw [hbody hne, hd]; rfl
  · rw [hbody hne, hd]; rfl
  · by_cases hne : p.Body = []
    · have hb0 : b = [] := by
        have := stdDecodeString_encode b
        rw [← hb, hne] at this
        exact (Option.some.inj this).symm
      simp [requestBody, hform, hne, hb0]
    · rw [hbody hne, hb, stdDecodeString_encode]; rfl

/-- C8 at the bytes 00 01 ff. -/
theorem C8_binary_body_round_trip_witness :
    ∃ req, buildRequest sampleEnv binaryPayload binaryPayload.Headers = Except.ok req ∧
      req.Body = RequestBody.buffer [0, 1, 255] :=
  ⟨_, rfl,
   (C8_binary_body_round_trip sampleEnv binaryPayload binaryPayload.Headers _ rfl (by decide)
      rfl).2 [0, 1, 255] (by decide)⟩

/-- C9 as stated fails: formData is empty and the Content-Type is not
`application/octet-stream` (it carries a parameter), yet the outbound body is
the three bytes 00 01 02 and not the four bytes of the input body. -/
theorem C9_counterexample :
    parameterPayload.FormData = [] ∧
    GoMap.get (calculateAuthHeaders parameterPayload) (lit "Content-Type") ≠
      some (lit "application/octet-stream") ∧
    ∃ req, buildRequest sampleEnv parameterPayload
        (sampleEnv.rangeOrder (calculateAuthHeaders parameterPayload)) = Except.ok req ∧
      req.Body = RequestBody.buffer [0, 1, 2] ∧
      req.Body ≠ RequestBody.buffer parameterPayload.Body :=
  ⟨rfl, by decide, _, rfl, by decide, by decide⟩

/-- C9, amended: when formData is empty and the resolved Content-Type header
does not contain `application/octet-stream` (or is absent), the body of the
outbound request equals the input body byte for byte. -/
theorem C9_text_body_round_trip (env : Env) (p : RequestPayload)
    (headers : GoMap GoString) (req : Request)
    (hform : p.FormData = [])
    (hct : stringsContains ((GoMap.get headers (lit "Content-Type")).getD [])
      (lit "application/octet-stream") = false)
    (hreq : buildRequest env p headers = Except.ok req) :
    req.Body = RequestBody.buffer p.Body := by
  rw [buildRequest_body env p headers req hreq]
  simp [requestBody, hform, hct]

/-- C9 amended, on a JSON request whose body is also valid base64. -/
theorem C9_text_body_round_trip_witness :
    ∃ req, buildRequest sampleEnv textPayload textPayload.Headers = Except.ok req ∧
      req.Body = RequestBody.buffer (lit "AAEC") :=
  ⟨_, rfl, C9_text_body_round_trip sampleEnv textPayload textPayload.Headers _ rfl (by decide) rfl⟩

/-! ## The header loop -/

theorem applyHeaders_eq (h : Header) (contentType : GoString) (headers : GoMap GoString) :
    applyHeaders h contentType headers =
      headers.foldl headerStep
        (if contentType ≠ [] then Header.Set h (lit "Content-Type") contentType else h) := rfl

/-- A canonical name that no forwarded header has keeps its value through the loop. -/
theorem foldl_headerStep_untouched (headers : GoMap GoString) (h : Header) (c : GoString)
    (hc : ∀ kv ∈ headers, kv.1 ≠ lit "Accept-Encoding" → canonicalMIMEHeaderKey kv.1 ≠ c) :
    GoMap.get (headers.foldl headerStep h) c = GoMap.get h c := by
  induction headers generalizing h with
  | nil => rfl
  | cons kv rest ih =>
    simp only [List.foldl_cons]
    rw [ih _ (fun kv2 hm => hc kv2 (List.mem_cons_of_mem _ hm))]
    unfold headerStep
    by_cases hk : kv.1 = lit "Accept-Encoding"
    · simp [hk]
    · simp only [ne_eq, hk, not_false_eq_true, if_true, Header.Set]
      exact GoMap.get_set_ne _ _ _ _ (Ne.symm (hc kv (List.mem_cons_self _ _) hk))

/-- With pairwise distinct canonical names, a header other than
`Accept-Encoding` holds its own value after the loop. -/
theorem foldl_headerStep_mem (headers : GoMap GoString) (h : Header) (k v : GoString)
    (hnd : (headers.map (fun kv => canonicalMIMEHeaderKey kv.1)).Nodup)
    (hm : (k, v) ∈ headers) (hk : k ≠ lit "Accept-Encoding") :
    GoMap.get (headers.foldl headerStep h) (canonicalMIMEHeaderKey k) = some [v] := by
  induction headers generalizing h with
  | nil => simp at hm
  | cons kv rest ih =>
    simp only [List.map_cons, List.nodup_cons] at hnd
    simp only [List.foldl_cons]
    rcases List.mem_cons.1 hm with h1 | h1
    · subst h1
      rw [foldl_headerStep_untouched]
      · simp only [headerStep, ne_eq, hk, not_false_eq_true, if_true, Header.Set]
        exact GoMap.get_set_self _ _ _
      · intro kv2 hm2 _ heq
        exact hnd.1 (List.mem_map.2 ⟨kv2, hm2, heq⟩)
    · exact ih _ hnd.2 h1

/-- C3 at a failing input: formData is non-empty and the resolved headers
declare `application/json`; the outbound body is the multipart body, but the
outbound Content-Type is the declared `application/json`, because the header
loop runs after the computed content type is set and overwrites it. -/
theorem C3_content_type_clobbered :
    0 < formPayload.FormData.length ∧
    GoMap.get (calculateAuthHeaders formPayload) (lit "Content-Type") =
      some (lit "application/json") ∧
    ∃ req, buildRequest sampleEnv formPayload
        (sampleEnv.rangeOrder (calculateAuthHeaders formPayload)) = Except.ok req ∧
      req.Body = RequestBody.multipart sampleEnv.boundary [Part.field (lit "a") (lit "b")] ∧
      GoMap.get req.Header (lit "Content-Type") = some [lit "application/json"] ∧
      GoMap.get req.Header (lit "Content-Type") ≠
        some [formDataContentType sampleEnv.boundary] :=
  ⟨by decide, by decide, _, rfl, by decide, by decide, by decide⟩

/-- What the code does for every body: a resolved header named `Content-Type`
is the outbound Content-Type when the resolved names are canonically distinct. -/
theorem declared_content_type_wins (env : Env) (p : RequestPayload)
    (headers : GoMap GoString) (req : Request) (v : GoString)
    (hnd : (headers.map (fun kv => canonicalMIMEHeaderKey kv.1)).Nodup)
    (hm : (lit "Content-Type", v) ∈ headers)
    (hreq : buildRequest env p headers = Except.ok req) :
    GoMap.get req.Header (lit "Content-Type") = some [v] := by
  rw [buildRequest_header env p headers req hreq, applyHeaders_eq]
  have hc : canonicalMIMEHeaderKey (lit "Content-Type") = lit "Content-Type" := by decide
  have := foldl_headerStep_mem headers
    (if (requestBody env p headers).2 ≠ [] then
      Header.Set [] (lit "Content-Type") (requestBody env p headers).2 else [])
    (lit "Content-Type") v hnd hm (by decide)
  rwa [hc] at this

/-! ## net/url: escaping round trip -/

set_option maxRecDepth 100000 in
theorem escapeByte_no_separator (c : Byte) :
    (38 : Byte) ∉ escapeByte c ∧ (61 : Byte) ∉ escapeByte c ∧ (59 : Byte) ∉ escapeByte c ∧
      escapeByte c ≠ [] := by
  revert c
  decide

set_option maxRecDepth 100000 in
theorem unhex_upperhex (c : Byte) :
    ishex (upperhex (c.val / 16)) = true ∧ ishex (upperhex (c.val % 16)) = true ∧
      byte (unhex (upperhex (c.val / 16)) * 16 + unhex (upperhex (c.val % 16))) = c := by
  revert c
  decide

set_option maxRecDepth 100000 in
theorem unreserved_plain (c : Byte) (h : shouldEscape c = false) : c ≠ 37 ∧ c ≠ 43 := by
  revert c
  decide

theorem queryUnescape_escapeByte (c : Byte) (rest : GoString) :
    queryUnescape (escapeByte c ++ rest) = (queryUnescape rest).map (fun t => c :: t) := by
  unfold escapeByte
  by_cases h32 : c = 32
  · subst h32
    have h43 : ((43 : Byte) = 37) = False := by decide
    simp only [if_true, List.singleton_append]
    conv_lhs => unfold queryUnescape
    simp only [h43, if_false, if_true]
  · by_cases hs : shouldEscape c = true
    · obtain ⟨h1, h2, h3⟩ := unhex_upperhex c
      simp [h32, hs, queryUnescape, h1, h2, h3]
    · have hs2 : shouldEscape c = false := by simpa using hs
      obtain ⟨h1, h2⟩ := unreserved_plain c hs2
      simp only [h32, hs2, if_false, List.singleton_append, Bool.false_eq_true]
      conv_lhs => unfold queryUnescape
      simp only [h1, h2, if_false]

theorem queryUnescape_queryEscape (s : GoString) : queryUnescape (queryEscape s) = some s := by
  induction s with
  | nil => rfl
  | cons c s ih =>
    have : queryEscape (c :: s) = escapeByte c ++ queryEscape s := by
      simp [queryEscape]
    rw [this, queryUnescape_escapeByte, ih]
    rfl

theorem queryEscape_no_separator (s : GoString) :
    (38 : Byte) ∉ queryEscape s ∧ (61 : Byte) ∉ queryEscape s ∧ (59 : Byte) ∉ queryEscape s := by
  simp only [queryEscape, List.mem_flatMap, not_exists, not_and]
  exact ⟨fun c _ => (escapeByte_no_separator c).1, fun c _ => (escapeByte_no_separator c).2.1,
    fun c _ => (escapeByte_no_separator c).2.2.1⟩

theorem cut_append (sep : Byte) (a b : GoString) (h : sep ∉ a) :
    cut sep (a ++ sep :: b) = (a, b) := by
  induction a with
  | nil => simp [cut]
  | cons c a ih =>
    simp only [List.mem_cons, not_or] at h
    simp [cut, Ne.symm h.1, ih h.2]
/-! ## net/url: `Values.Encode` and `ParseQuery` -/

theorem GoMap.keys_set {α : Type} (m : GoMap α) (k : GoString) (v : α) :
    GoMap.keys (GoMap.set m k v) = if k ∈ GoMap.keys m then GoMap.keys m else GoMap.keys m ++ [k] := by
  induction m with
  | nil => simp [GoMap.set, GoMap.keys]
  | cons e m ih =>
    obtain ⟨k1, v1⟩ := e
    by_cases h : k1 = k
    · subst h
      simp [GoMap.set, GoMap.keys]
    · have h2 : ¬ k = k1 := fun h3 => h h3.symm
      simp only [GoMap.keys] at ih
      simp only [GoMap.set, h, if_false, GoMap.keys, List.map_cons, ih, List.mem_cons, h2,
        false_or]
      split <;> simp

theorem GoMap.keysNodup_set {α : Type} (m : GoMap α) (k : GoString) (v : α)
    (h : GoMap.keysNodup m) : GoMap.keysNodup (GoMap.set m k v) := by
  unfold GoMap.keysNodup at *
  rw [GoMap.keys_set]
  split
  · exact h
  · rename_i hk
    exact List.nodup_append.2 ⟨h, List.nodup_singleton k, by
      intro a ha hb
      rw [List.mem_singleton] at hb
      exact hk (hb ▸ ha)⟩

theorem Values.at_Add (m : Values) (k x key : GoString) :
    Values.at (Values.Add m k x) key =
      if key = k then Values.at m k ++ [x] else Values.at m key := by
  unfold Values.Add
  by_cases h : key = k
  · subst h
    simp only [if_true]
    conv_lhs => unfold Values.at
    rw [GoMap.get_set_self]
    rfl
  · simp only [h, if_false]
    conv_lhs => unfold Values.at
    rw [GoMap.get_set_ne _ _ _ _ h]
    rfl

theorem Values.keysNodup_Add (m : Values) (k x : GoString) (h : GoMap.keysNodup m) :
    GoMap.keysNodup (Values.Add m k x) :=
  GoMap.keysNodup_set m k _ h

theorem parseSegment_keysNodup (m : Values) (seg : GoString) (h : GoMap.keysNodup m) :
    GoMap.keysNodup (parseSegment m seg) := by
  unfold parseSegment
  split
  · exact h
  · split
    · exact h
    · split
      · exact h
      · split
        · exact h
        · exact Values.keysNodup_Add _ _ _ h

theorem foldl_parseSegment_keysNodup (segs : List GoString) (m : Values)
    (h : GoMap.keysNodup m) : GoMap.keysNodup (segs.foldl parseSegment m) := by
  induction segs generalizing m with
  | nil => exact h
  | cons s segs ih => exact ih _ (parseSegment_keysNodup m s h)

theorem parseQuery_keysNodup (maxParams : Option Nat) (query : GoString) :
    GoMap.keysNodup (parseQuery maxParams query) := by
  unfold parseQuery
  split
  · exact foldl_parseSegment_keysNodup _ [] List.nodup_nil
  · exact List.nodup_nil

/-- One query segment `QueryEscape(k) = QueryEscape(x)`. -/
theorem parseSegment_pair (m : Values) (k x : GoString) :
    parseSegment m (queryEscape k ++ [61] ++ queryEscape x) = Values.Add m k x := by
  obtain ⟨_, hk61, hk59⟩ := queryEscape_no_separator k
  obtain ⟨_, _, hx59⟩ := queryEscape_no_separator x
  have hcut : cut 61 (queryEscape k ++ [61] ++ queryEscape x) = (queryEscape k, queryEscape x) := by
    have := cut_append 61 (queryEscape k) (queryEscape x) hk61
    simpa using this
  have h59 : (queryEscape k ++ [61] ++ queryEscape x).contains 59 = false := by
    have h1 : (59 : Byte) ≠ 61 := by decide
    simp [hk59, hx59, h1]
  have hne : queryEscape k ++ [61] ++ queryEscape x ≠ [] := by simp
  unfold parseSegment
  simp only [h59, hne, hcut, queryUnescape_queryEscape, if_false, Bool.false_eq_true]

theorem foldl_parseSegment_pairs (pairs : List (GoString × GoString)) (m : Values) :
    (pairs.map (fun kx => queryEscape kx.1 ++ [61] ++ queryEscape kx.2)).foldl parseSegment m =
      pairs.foldl (fun m kx => Values.Add m kx.1 kx.2) m := by
  induction pairs generalizing m with
  | nil => rfl
  | cons kx pairs ih =>
    simp only [List.map_cons, List.foldl_cons, parseSegment_pair, ih]

theorem parseQuery_intercalate (maxParams : Option Nat) (pairs : List (GoString × GoString))
    (hmax : withinMaxParams maxParams ([(38 : Byte)].intercalate
        (pairs.map (fun kx => queryEscape kx.1 ++ [61] ++ queryEscape kx.2))) = true) :
    parseQuery maxParams ([(38 : Byte)].intercalate
        (pairs.map (fun kx => queryEscape kx.1 ++ [61] ++ queryEscape kx.2))) =
      pairs.foldl (fun m kx => Values.Add m kx.1 kx.2) [] := by
  unfold parseQuery
  rw [if_pos hmax]
  cases pairs with
  | nil => decide
  | cons kx pairs =>
    rw [List.splitOn_intercalate, foldl_parseSegment_pairs]
    · intro l hl
      obtain ⟨kx2, _, rfl⟩ := List.mem_map.1 hl
      have h1 := (queryEscape_no_separator kx2.1).1
      have h2 := (queryEscape_no_separator kx2.2).1
      have h3 : (38 : Byte) ≠ 61 := by decide
      simp [h1, h2, h3]
    · simp

theorem foldl_Add_at (pairs : List (GoString × GoString)) (m : Values) (key : GoString) :
    Values.at (pairs.foldl (fun m kx => Values.Add m kx.1 kx.2) m) key =
      Values.at m key ++ (pairs.filter (fun kx => kx.1 = key)).map Prod.snd := by
  induction pairs generalizing m with
  | nil => simp
  | cons kx pairs ih =>
    simp only [List.foldl_cons, ih, Values.at_Add]
    by_cases h : key = kx.1
    · subst h
      simp [List.filter_cons]
    · have h2 : ¬ kx.1 = key := fun h3 => h h3.symm
      simp [List.filter_cons, h, h2]

theorem filter_pairs_of_keys (keys : List GoString) (f : GoString → List GoString)
    (key : GoString) (hnd : keys.Nodup) :
    ((keys.flatMap (fun k => (f k).map (fun x => (k, x)))).filter
        (fun kx => kx.1 = key)).map Prod.snd =
      if key ∈ keys then f key else [] := by
  induction keys with
  | nil => simp
  | cons k ks ih =>
    simp only [List.nodup_cons] at hnd
    simp only [List.flatMap_cons, List.filter_append, List.map_append, ih hnd.2]
    by_cases h : k = key
    · subst h
      have : ((f k).map (fun x => (k, x))).filter (fun kx => kx.1 = k) =
          (f k).map (fun x => (k, x)) := by
        apply List.filter_eq_self.2
        intro a ha
        obtain ⟨x, _, rfl⟩ := List.mem_map.1 ha
        simp
      simp [this, hnd.1, Function.comp_def]
    · have : ((f k).map (fun x => (k, x))).filter (fun kx => kx.1 = key) = [] := by
        apply List.filter_eq_nil_iff.2
        intro a ha
        obtain ⟨x, _, rfl⟩ := List.mem_map.1 ha
        simpa using h
      have h2 : ¬ key = k := fun h3 => h h3.symm
      simp [this, h2]

/-- Parsing an encoded `url.Values` that is within the limit gives back the
values of every key. -/
theorem parseQuery_Encode (maxParams : Option Nat) (v : Values) (hnd : GoMap.keysNodup v)
    (hmax : withinMaxParams maxParams (Values.Encode v) = true) (key : GoString) :
    Values.at (parseQuery maxParams (Values.Encode v)) key = Values.at v key := by
  have hperm := List.perm_insertionSort (fun a b => stringLE a b = true) (GoMap.keys v)
  have hsorted : ((GoMap.keys v).insertionSort (fun a b => stringLE a b = true)).Nodup :=
    hperm.nodup_iff.2 hnd
  have henc : Values.Encode v = [(38 : Byte)].intercalate
      ((((GoMap.keys v).insertionSort (fun a b => stringLE a b = true)).flatMap
          (fun k => (Values.at v k).map (fun x => (k, x)))).map
        (fun kx => queryEscape kx.1 ++ [61] ++ queryEscape kx.2)) := by
    unfold Values.Encode
    simp only [List.map_flatMap, List.map_map, Function.comp_def]
  rw [henc] at hmax ⊢
  rw [parseQuery_intercalate maxParams _ hmax, foldl_Add_at,
    filter_pairs_of_keys _ _ _ hsorted]
  have h0 : Values.at ([] : Values) key = [] := rfl
  rw [h0, List.nil_append]
  by_cases hk : key ∈ GoMap.keys v
  · rw [if_pos (hperm.mem_iff.2 hk)]
  · rw [if_neg (fun h => hk (hperm.mem_iff.1 h))]
    unfold Values.at
    rw [GoMap.get_eq_none v key hk]
    rfl

/-! ## Query injection -/

/-- C7 as stated fails: the input URL has the pairs `q=100%` and `page=2`, and
the outbound query is `k=v&page=2`, without `q=100%`; the input URL with the
query `a=1;b=2` leaves with the query `k=v` alone.  What `url.ParseQuery`
rejects is not written back. -/
theorem C7_counterexample :
    (∃ u req, sampleEnv.urlParse percentPayload.URL = Except.ok u ∧
      buildRequest sampleEnv percentPayload [] = Except.ok req ∧
      u.RawQuery = lit "q=100%&page=2" ∧
      lit "q=100%" ∈ u.RawQuery.splitOn 38 ∧
      req.URL.RawQuery = lit "k=v&page=2" ∧
      lit "q=100%" ∉ req.URL.RawQuery.splitOn 38) ∧
    (∃ u req, sampleEnv.urlParse semicolonPayload.URL = Except.ok u ∧
      buildRequest sampleEnv semicolonPayload [] = Except.ok req ∧
      u.RawQuery = lit "a=1;b=2" ∧
      req.URL.RawQuery = lit "k=v") :=
  ⟨⟨_, _, rfl, rfl, by decide, by decide, by decide, by decide⟩,
   ⟨_, _, rfl, rfl, by decide, by decide⟩⟩

/-- C7, amended: with `api-key`, addTo `query` and string key k and value v,
the outbound query string is the encoding (`Values.Encode`) of the parameters
that `URL.Query` reads from the input URL with v appended under k: every pair
`url.ParseQuery` accepts keeps its value, v comes after the values k already
had, and a reader whose limit the outbound query respects finds exactly these
parameters.  For any other authType or addTo the raw query string is left
unchanged. -/
theorem C7_query_injection (env : Env) (p : RequestPayload) (headers : GoMap GoString)
    (req : Request) (hreq : buildRequest env p headers = Except.ok req) :
    ∃ u, env.urlParse p.URL = Except.ok u ∧
      (∀ k v, p.AuthType = lit "api-key" →
          asString (GoMap.get p.AuthData (lit "addTo")) = some (lit "query") →
          asString (GoMap.get p.AuthData (lit "key")) = some k →
          asString (GoMap.get p.AuthData (lit "value")) = some v →
          req.URL.RawQuery = (Values.Add (u.Query env.maxQueryParams) k v).Encode ∧
          ∀ maxParams, withinMaxParams maxParams req.URL.RawQuery = true →
            ∀ key, Values.at (req.URL.Query maxParams) key =
              if key = k then Values.at (u.Query env.maxQueryParams) k ++ [v]
              else Values.at (u.Query env.maxQueryParams) key) ∧
      (¬ (p.AuthType = lit "api-key" ∧
            asString (GoMap.get p.AuthData (lit "addTo")) = some (lit "query")) →
          req.URL.RawQuery = u.RawQuery) := by
  obtain ⟨u, hu, hq⟩ := buildRequest_url env p headers req hreq
  refine ⟨u, hu, ?_, ?_⟩
  · intro k v ht ha hk hv
    have hraw : req.URL.RawQuery = (Values.Add (u.Query env.maxQueryParams) k v).Encode := by
      rw [hq]
      simp only [applyQueryAuth, ht, ha, hk, hv, if_true]
    refine ⟨hraw, fun maxParams hmax key => ?_⟩
    have hnd : GoMap.keysNodup (Values.Add (u.Query env.maxQueryParams) k v) :=
      Values.keysNodup_Add _ _ _ (parseQuery_keysNodup env.maxQueryParams u.RawQuery)
    have hq2 : req.URL.Query maxParams =
        parseQuery maxParams (Values.Add (u.Query env.maxQueryParams) k v).Encode := by
      show parseQuery maxParams req.URL.RawQuery = _
      rw [hraw]
    rw [hraw] at hmax
    rw [hq2, parseQuery_Encode maxParams _ hnd hmax, Values.at_Add]
  · intro hn
    rw [hq]
    unfold applyQueryAuth
    by_cases ht : p.AuthType = lit "api-key"
    · simp only [ht, if_true]
      cases ha : asString (GoMap.get p.AuthData (lit "addTo")) with
      | none => rfl
      | some addTo =>
        have hne : addTo ≠ lit "query" := fun h => hn ⟨ht, by rw [ha, h]⟩
        simp only [hne, if_false]
    · simp only [ht, if_false]

/-- C7 amended, on a URL that already has the key twice: the outbound query is
`api_key=old&api_key=older&api_key=s3cr3t&page=2`. -/
theorem C7_query_injection_witness :
    ∃ req, buildRequest sampleEnv queryPayload [] = Except.ok req ∧
      req.URL.RawQuery = lit "api_key=old&api_key=older&api_key=s3cr3t&page=2" ∧
      ∀ key, Values.at (req.URL.Query (some 10000)) key =
        if key = lit "api_key" then
          Values.at (parseQuery (some 10000) (lit "api_key=old&page=2&api_key=older"))
            (lit "api_key") ++ [lit "s3cr3t"]
        else Values.at (parseQuery (some 10000) (lit "api_key=old&page=2&api_key=older")) key := by
  refine ⟨_, rfl, by decide, ?_⟩
  obtain ⟨u, hu, h1, _⟩ := C7_query_injection sampleEnv queryPayload [] _ rfl
  have h2 : sampleEnv.urlParse queryPayload.URL = Except.ok
      { Scheme := [], Host := [], Path := lit "http://localhost:9999/x",
        RawQuery := lit "api_key=old&page=2&api_key=older", Fragment := [] } := rfl
  rw [h2] at hu
  cases hu
  exact (h1 (lit "api_key") (lit "s3cr3t") rfl (by decide) (by decide) (by decide)).2
    (some 10000) (by decide)

/-! ## Header forwarding -/

/-- C10 as stated fails.  The resolved mapping holds `accept-encoding: gzip`,
`x-trace: 1` and `X-Trace: 2`; the outbound request carries
`Accept-Encoding: gzip` taken from the mapping, and under `X-Trace` only the
value 2, so the resolved header `x-trace: 1` is not on the outbound request. -/
theorem C10_counterexample :
    GoMap.keysNodup (calculateAuthHeaders spellingPayload) ∧
    (lit "x-trace", lit "1") ∈ sampleEnv.rangeOrder (calculateAuthHeaders spellingPayload) ∧
    lit "x-trace" ≠ lit "Accept-Encoding" ∧
    ∃ req, buildRequest sampleEnv spellingPayload
        (sampleEnv.rangeOrder (calculateAuthHeaders spellingPayload)) = Except.ok req ∧
      req.Header = [(lit "Accept-Encoding", [lit "gzip"]), (lit "X-Trace", [lit "2"])] ∧
      GoMap.get req.Header (lit "Accept-Encoding") = some [lit "gzip"] ∧
      GoMap.get req.Header (canonicalMIMEHeaderKey (lit "x-trace")) ≠ some [lit "1"] :=
  ⟨by decide, by decide, by decide, _, rfl, by decide, by decide, by decide⟩

/-- C10, amended: when the resolved names have pairwise distinct canonical
forms, every resolved header whose canonical name is not `Accept-Encoding`
(and, for a request with form data, not `Content-Type`) is on the outbound
request, under its canonical name, with its value unchanged; the entry named
exactly `Accept-Encoding` is never forwarded, so the outbound request has no
`Accept-Encoding` header when no other resolved name canonicalises to it. -/
theorem C10_headers_forwarded (env : Env) (p : RequestPayload) (headers : GoMap GoString)
    (req : Request)
    (hnd : (headers.map (fun kv => canonicalMIMEHeaderKey kv.1)).Nodup)
    (hreq : buildRequest env p headers = Except.ok req) :
    (∀ k v, (k, v) ∈ headers → canonicalMIMEHeaderKey k ≠ lit "Accept-Encoding" →
        (0 < p.FormData.length → canonicalMIMEHeaderKey k ≠ lit "Content-Type") →
        GoMap.get req.Header (canonicalMIMEHeaderKey k) = some [v]) ∧
    ((∀ kv ∈ headers, canonicalMIMEHeaderKey kv.1 = lit "Accept-Encoding" →
          kv.1 = lit "Accept-Encoding") →
        GoMap.get req.Header (lit "Accept-Encoding") = none) := by
  rw [buildRequest_header env p headers req hreq, applyHeaders_eq]
  have hc : canonicalMIMEHeaderKey (lit "Accept-Encoding") = lit "Accept-Encoding" := by decide
  refine ⟨fun k v hm hk _ => ?_, fun hae => ?_⟩
  · apply foldl_headerStep_mem headers _ k v hnd hm
    intro h
    exact hk (h ▸ hc)
  · rw [foldl_headerStep_untouched]
    · have hct : canonicalMIMEHeaderKey (lit "Content-Type") = lit "Content-Type" := by decide
      have hne : lit "Accept-Encoding" ≠ lit "Content-Type" := by decide
      split
      · unfold Header.Set
        rw [GoMap.get_set_ne _ _ _ _ (by rw [hct]; exact hne)]
        rfl
      · rfl
    · intro kv hm hk heq
      exact hk (hae kv hm heq)

/-- C10 amended, on `Accept-Encoding: gzip`, `x-trace: 1`, `Accept: */*`. -/
theorem C10_headers_forwarded_witness :
    ∃ req, buildRequest sampleEnv plainPayload plainPayload.Headers = Except.ok req ∧
      GoMap.get req.Header (lit "X-Trace") = some [lit "1"] ∧
      GoMap.get req.Header (lit "Accept") = some [lit "*/*"] ∧
      GoMap.get req.Header (lit "Accept-Encoding") = none :=
  ⟨_, rfl,
   (C10_headers_forwarded sampleEnv plainPayload plainPayload.Headers _ (by decide) rfl).1
     (lit "x-trace") (lit "1") (by decide) (by decide) (by decide),
   (C10_headers_forwarded sampleEnv plainPayload plainPayload.Headers _ (by decide) rfl).1
     (lit "Accept") (lit "*/*") (by decide) (by decide) (by decide),
   (C10_headers_forwarded sampleEnv plainPayload plainPayload.Headers _ (by decide) rfl).2
     (by decide)⟩

/-! ## Failure normalisation -/

/-- C4: `respondWithError` writes status 200 with the payload status 0,
statusText `Error`, no headers, body `message: error text`, duration 0; and
`executeHandler` answers with it, the message being `Request failed`, when the
request cannot be built or sent, and `Failed to read response` when reading
the response body fails, whatever time had elapsed. -/
theorem C4_failures_normalized (env : Env) (p : RequestPayload) :
    (∀ h m e, respondWithError h m e =
        Written.json (Header.Set h (lit "Content-Type") (lit "application/json")) 200
          { Status := 0, StatusText := lit "Error", Headers := [],
            Body := m ++ lit ": " ++ e, Duration := 0 }) ∧
    (∀ e, buildRequest env p (env.rangeOrder (calculateAuthHeaders p)) = Except.error e →
        executeHandler env (lit "POST") (Except.ok p) =
          respondWithError (enableCORS []) (lit "Request failed") e) ∧
    (∀ req e d, buildRequest env p (env.rangeOrder (calculateAuthHeaders p)) = Except.ok req →
        env.clientDo req = (Except.error e, d) →
        executeHandler env (lit "POST") (Except.ok p) =
          respondWithError (enableCORS []) (lit "Request failed") e) ∧
    (∀ req resp e d, buildRequest env p (env.rangeOrder (calculateAuthHeaders p)) = Except.ok req →
        env.clientDo req = (Except.ok resp, d) → resp.Body = Except.error e →
        executeHandler env (lit "POST") (Except.ok p) =
          respondWithError (enableCORS []) (lit "Failed to read response") e) := by
  have hpost : lit "POST" ≠ lit "OPTIONS" := by decide
  refine ⟨fun _ _ _ => rfl, fun e hb => ?_, fun req e d hb hd => ?_,
    fun req resp e d hb hd hr => ?_⟩
  · simp only [executeHandler, hpost, if_false, ne_eq, not_true_eq_false, executeRequest, hb]
  · simp only [executeHandler, hpost, if_false, ne_eq, not_true_eq_false, executeRequest, hb, hd]
  · simp only [executeHandler, hpost, if_false, ne_eq, not_true_eq_false, executeRequest, hb, hd,
      hr]

/-- C4 on an invalid method, on a refused connection after 3 ms, and on a
response whose body cannot be read after 12 ms. -/
theorem C4_failures_normalized_witness :
    executeHandler sampleEnv (lit "POST") (Except.ok badMethodPayload) =
      Written.json (Header.Set (enableCORS []) (lit "Content-Type") (lit "application/json")) 200
        { Status := 0, StatusText := lit "Error", Headers := [],
          Body := lit "Request failed: net/http: invalid method BAD METHOD", Duration := 0 } ∧
    executeHandler sampleEnv (lit "POST") (Except.ok plainPayload) =
      Written.json (Header.Set (enableCORS []) (lit "Content-Type") (lit "application/json")) 200
        { Status := 0, StatusText := lit "Error", Headers := [],
          Body := lit "Request failed: dial tcp 127.0.0.1:9999: connect: connection refused",
          Duration := 0 } ∧
    executeHandler brokenReadEnv (lit "POST") (Except.ok plainPayload) =
      Written.json (Header.Set (enableCORS []) (lit "Content-Type") (lit "application/json")) 200
        { Status := 0, StatusText := lit "Error", Headers := [],
          Body := lit "Failed to read response: unexpected EOF", Duration := 0 } :=
  ⟨((C4_failures_normalized sampleEnv badMethodPayload).2.1 _ rfl).trans (by decide),
   ((C4_failures_normalized sampleEnv plainPayload).2.2.1 _ _ 3 rfl rfl).trans (by decide),
   ((C4_failures_normalized brokenReadEnv plainPayload).2.2.2 _ _ _ 12 rfl rfl rfl).trans
     (by decide)⟩

/-! ## Test vectors of the library model -/

/-- RFC 4648 vectors and the byte triple of the binary round trip. -/
theorem stdEncodeToString_vectors :
    stdEncodeToString (lit "f") = lit "Zg==" ∧
    stdEncodeToString (lit "fo") = lit "Zm8=" ∧
    stdEncodeToString (lit "foobar") = lit "Zm9vYmFy" ∧
    stdEncodeToString (lit "u:p") = lit "dTpw" ∧
    stdEncodeToString [0, 1, 255] = lit "AAH/" := by
  decide

/-- The decoder accepts padded input and line breaks, and rejects missing
padding, a lone character and bytes outside the alphabet. -/
theorem stdDecodeString_vectors :
    stdDecodeString (lit "Zg==") = some (lit "f") ∧
    stdDecodeString (lit "Zm8=") = some (lit "fo") ∧
    stdDecodeString (lit "Zm9v\nYmFy") = some (lit "foobar") ∧
    stdDecodeString (lit "AAH/") = some [0, 1, 255] ∧
    stdDecodeString (lit "Zg=") = none ∧
    stdDecodeString (lit "Zg") = none ∧
    stdDecodeString (lit "Z") = none ∧
    stdDecodeString (lit "Zg==Zg==") = none ∧
    stdDecodeString (lit "hello world") = none := by
  decide

/-- Canonical header names; a name with a space is left alone. -/
theorem canonicalMIMEHeaderKey_vectors :
    canonicalMIMEHeaderKey (lit "accept-encoding") = lit "Accept-Encoding" ∧
    canonicalMIMEHeaderKey (lit "content-TYPE") = lit "Content-Type" ∧
    canonicalMIMEHeaderKey (lit "X-API-Key") = lit "X-Api-Key" ∧
    canonicalMIMEHeaderKey (lit "x y") = lit "x y" := by
  decide

/-- Escaping, parsing and encoding of query strings: a malformed escape and a
segment with a semicolon are dropped by the parser, a query with more segments
than the limit yields nothing, keys are sorted on output. -/
theorem query_vectors :
    queryEscape (lit "a b&c=d/") = lit "a+b%26c%3Dd%2F" ∧
    queryUnescape (lit "a+b%26c%3Dd%2f") = some (lit "a b&c=d/") ∧
    queryUnescape (lit "100%") = none ∧
    parseQuery none (lit "a=1&b=2&a=3") =
      [(lit "a", [lit "1", lit "3"]), (lit "b", [lit "2"])] ∧
    parseQuery (some 3) (lit "a=1&b=2&a=3") =
      [(lit "a", [lit "1", lit "3"]), (lit "b", [lit "2"])] ∧
    parseQuery (some 2) (lit "a=1&b=2&a=3") = [] ∧
    parseQuery (some 2) (lit "b=2&&") = [] ∧
    Values.Encode (parseQuery none (lit "b=2&a=1&a=%zz&c;d=1&a=x+y")) = lit "a=1&a=x+y&b=2" := by
  decide

/-- The multipart content type of the sample boundary. -/
theorem formDataContentType_vector :
    formDataContentType sampleEnv.boundary =
      lit "multipart/form-data; boundary=5c1d3fa2b7e94c0a" := by
  decide

end ApiSpider
